import Mathlib

set_option linter.unusedVariables false

/-!
Verification of the NOVE OS license API (src/main.py) against its
natural-language specification.  The persistent store (SQLite tables
`contacts`, `licenses`, `activations`) is embedded as lists of records,
and each HTTP handler becomes a pure function from the store and the
request (plus the environment inputs: today's date, the current
timestamp, the freshly generated random key) to a response-or-error
together with the resulting store.  Dates are the `YYYY-MM-DD` strings
the code stores and compares lexicographically.
-/

deriving instance DecidableEq for Except

namespace NoveApi

/-- Python's `<` on strings, as used on the `YYYY-MM-DD` date strings:
lexicographic comparison of the character sequences. -/
def strLt (s t : String) : Bool := decide (s.data < t.data)

/-- A row of the `licenses` table (the `id` surrogate column is omitted;
rows are identified by their unique `license_key`). `is_active` is the
INTEGER column that only ever holds 1 (default) or 0 (after revoke). -/
structure License where
  license_key : String
  plan : String
  customer_name : String
  customer_email : String
  server_limit : Nat
  valid_from : String
  valid_until : String
  is_active : Bool
  note : Option String
  deriving DecidableEq

/-- A row of the `activations` table. -/
structure Activation where
  license_key : String
  machine_id : String
  activated_at : String
  last_seen : String
  deriving DecidableEq

/-- A row of the `contacts` table. -/
structure Contact where
  user_type : String
  name : String
  email : String
  company : Option String
  plan : Option String
  message : Option String
  deriving DecidableEq

/-- The persistent store: the three tables, each in insertion order. -/
structure DB where
  contacts : List Contact
  licenses : List License
  activations : List Activation
  deriving DecidableEq

/-- An HTTPException raised by a handler: status code and detail string. -/
structure ApiError where
  status_code : Nat
  detail : String
  deriving DecidableEq

/-- The PLAN_LABELS catalog: plan id ↦ (display name, server limit, price label). -/
def PLAN_LABELS : List (String × String × Nat × String) :=
  [("personal", "パーソナル", 3, "¥5,000/月"),
   ("academic", "アカデミック", 10, "¥50,000/月"),
   ("startup", "スタートアップ", 50, "¥200,000/月"),
   ("standard", "スタンダード", 500, "¥1,000,000/月"),
   ("enterprise", "エンタープライズ", 99999, "¥1,500,000~/月"),
   ("beta", "ベータテスト", 50, "50%割引"),
   ("trial14", "14日間無料トライアル", 1, "無料"),
   ("trial", "お試し相談", 0, "無料"),
   ("consultation", "無料相談", 0, "無料"),
   ("other", "その他", 0, "-")]

/-- The character for one hex digit, uppercase, as produced by
`uuid4().hex.upper()`. -/
def hexChar (k : Nat) : Char :=
  "0123456789ABCDEF".data.getD k '0'

/-- The 32 uppercase hex characters of a 128-bit value: the model of
`uuid.uuid4().hex.upper()` applied to the random value `n`. -/
def uuidHexUpper (n : Nat) : String :=
  String.mk ((List.range 32).map (fun i => hexChar (n / 16 ^ (31 - i) % 16)))

/-- `generate_key(plan)` with the random hex string `raw` made explicit:
`f"NOVE-{plan[:3].upper()}-{raw[:4]}-{raw[4:8]}-{raw[8:12]}"`. -/
def generate_key (plan raw : String) : String :=
  String.mk ("NOVE-".data ++ (plan.data.take 3).map Char.toUpper ++ "-".data
    ++ raw.data.take 4 ++ "-".data ++ ((raw.data.drop 4).take 4) ++ "-".data
    ++ ((raw.data.drop 8).take 4))

/-- `SELECT COUNT(*) FROM activations WHERE license_key=?`. -/
def countActivations (db : DB) (key : String) : Nat :=
  (db.activations.filter (fun a => a.license_key == key)).length

def keyNotFoundMsg : String := "ライセンスキーが見つかりません"

def revokedMsg : String := "このライセンスは無効化されています"

def expiredMsg (valid_until : String) : String :=
  "ライセンスの有効期限が切れています（期限: " ++ valid_until ++ "）"

def limitMsg (server_limit : Nat) : String :=
  "サーバー台数の上限（" ++ toString server_limit ++ "台）に達しています。"
    ++ "ライセンスのアップグレードはサポート(myseiyakagetu@proton.me)までご連絡ください。"

def keyGenFailMsg : String := "キー生成に失敗しました。再試行してください。"

def dupTrialMsg : String := "このメールアドレスはすでにトライアルを使用済みです"

def unknownPlanMsg : String := "不明なプランです"

/-- The JSON body returned by `POST /api/license/activate`. -/
structure ActivateResponse where
  is_valid : Bool
  status : String
  plan : String
  customer_name : String
  valid_until : String
  server_limit : Nat
  activated_count : Nat
  deriving DecidableEq

/-- `activate_license` (POST /api/license/activate).  `today` is
`datetime.now().strftime("%Y-%m-%d")` and `now` the timestamp written
into `activated_at` / `last_seen`.  Returns the response or the raised
HTTPException, together with the store after the handler. -/
def activate_license (db : DB) (license_key machine_id today now : String) :
    Except ApiError ActivateResponse × DB :=
  match db.licenses.find? (fun l => l.license_key == license_key) with
  | none => (Except.error ⟨404, keyNotFoundMsg⟩, db)
  | some lic =>
    if !lic.is_active then
      (Except.error ⟨403, revokedMsg⟩, db)
    else if strLt lic.valid_until today then
      (Except.error ⟨403, expiredMsg lic.valid_until⟩, db)
    else
      match db.activations.find? (fun a =>
          a.license_key == license_key && a.machine_id == machine_id) with
      | none =>
        let count := countActivations db license_key
        if lic.server_limit > 0 ∧ count ≥ lic.server_limit then
          (Except.error ⟨403, limitMsg lic.server_limit⟩, db)
        else
          let db2 : DB :=
            { db with activations := db.activations ++ [⟨license_key, machine_id, now, now⟩] }
          (Except.ok ⟨true, "activated", lic.plan, lic.customer_name, lic.valid_until,
            lic.server_limit, countActivations db2 license_key⟩, db2)
      | some _ =>
        let db2 : DB :=
          { db with activations := db.activations.map (fun a =>
              if a.license_key == license_key && a.machine_id == machine_id then
                { a with last_seen := now } else a) }
        (Except.ok ⟨true, "valid", lic.plan, lic.customer_name, lic.valid_until,
          lic.server_limit, countActivations db2 license_key⟩, db2)

/-- The JSON body returned by `GET /api/license/validate/{key}`: the full
license row plus the two derived booleans and the activation count. -/
structure ValidateResponse where
  license : License
  is_expired : Bool
  is_valid : Bool
  activated_count : Nat
  deriving DecidableEq

/-- `validate_license` (GET /api/license/validate/{key}); read-only. -/
def validate_license (db : DB) (key today : String) : Except ApiError ValidateResponse :=
  match db.licenses.find? (fun l => l.license_key == key) with
  | none => Except.error ⟨404, keyNotFoundMsg⟩
  | some r =>
    let is_expired : Bool := strLt r.valid_until today
    Except.ok ⟨r, is_expired, r.is_active && !is_expired, countActivations db key⟩

/-- The JSON body returned by `POST /api/trial/request`. -/
structure TrialResponse where
  status : String
  license_key : String
  valid_until : String
  install_cmd : String
  deriving DecidableEq

/-- `request_trial` (POST /api/trial/request).  `key` is the freshly
generated license key, `today` / `valid_until` the computed window. -/
def request_trial (db : DB) (name email : String) (company : Option String)
    (key today valid_until : String) : Except ApiError TrialResponse × DB :=
  match db.licenses.find? (fun l => l.customer_email == email && l.plan == "trial14") with
  | some _ => (Except.error ⟨409, dupTrialMsg⟩, db)
  | none =>
    let server_limit := ((PLAN_LABELS.lookup "trial14").getD ("", 0, "")).2.1
    if db.licenses.any (fun l => l.license_key == key) then
      (Except.error ⟨500, keyGenFailMsg⟩, db)
    else
      let lic : License := ⟨key, "trial14", name, email, server_limit, today, valid_until,
        true, some ("会社: " ++ company.getD "未記入")⟩
      let c : Contact := ⟨"トライアル", name, email, company, some "trial14",
        some "14日間無料トライアル申込"⟩
      let db2 : DB := { db with licenses := db.licenses ++ [lic],
                                contacts := db.contacts ++ [c] }
      (Except.ok ⟨"ok", key, valid_until,
        "curl -fsSL https://noveos.jp/install.sh | sudo bash -s " ++ key⟩, db2)

/-- The JSON body returned by `POST /api/license/generate`. -/
structure CreateResponse where
  status : String
  license_key : String
  plan : String
  customer_email : String
  valid_from : String
  valid_until : String
  server_limit : Nat
  deriving DecidableEq

/-- `create_license` (POST /api/license/generate).  `key` is the freshly
generated license key; `valid_from` / `valid_until` are the computed
window (`today` and `today + 30 * months` days). -/
def create_license (db : DB) (plan customer_name customer_email : String)
    (months : Nat) (note : Option String) (key valid_from valid_until : String) :
    Except ApiError CreateResponse × DB :=
  match PLAN_LABELS.lookup plan with
  | none => (Except.error ⟨400, unknownPlanMsg⟩, db)
  | some (plan_name, server_limit, _price) =>
    if db.licenses.any (fun l => l.license_key == key) then
      (Except.error ⟨500, keyGenFailMsg⟩, db)
    else
      let lic : License := ⟨key, plan, customer_name, customer_email, server_limit,
        valid_from, valid_until, true, note⟩
      (Except.ok ⟨"ok", key, plan_name, customer_email, valid_from, valid_until, server_limit⟩,
        { db with licenses := db.licenses ++ [lic] })

/-- A status/message JSON body, as returned by the two DELETE handlers. -/
structure StatusResponse where
  status : String
  message : String
  deriving DecidableEq

/-- `remove_activation` (DELETE /api/license/{key}/activations/{machine_id}). -/
def remove_activation (db : DB) (key machine_id : String) : StatusResponse × DB :=
  (⟨"ok", "マシン " ++ machine_id ++ " の登録を解除しました"⟩,
   { db with activations := db.activations.filter (fun a =>
       !(a.license_key == key && a.machine_id == machine_id)) })

/-- `revoke_license` (DELETE /api/license/{key}). -/
def revoke_license (db : DB) (key : String) : StatusResponse × DB :=
  (⟨"ok", key ++ " を無効化しました"⟩,
   { db with licenses := db.licenses.map (fun l =>
       if l.license_key == key then { l with is_active := false } else l) })

/-- One state-changing request to the engine, with all environment
inputs (dates, generated key) explicit. -/
inductive Op where
  | trial (name email : String) (company : Option String) (key today valid_until : String)
  | issue (plan customer_name customer_email : String) (months : Nat) (note : Option String)
      (key valid_from valid_until : String)
  | activateMachine (license_key machine_id today now : String)
  | removeMachine (key machine_id : String)
  | revoke (key : String)
  deriving DecidableEq

/-- The store after handling one request (a raised error leaves it unchanged). -/
def applyOp (db : DB) : Op → DB
  | Op.trial n e c k t u => (request_trial db n e c k t u).2
  | Op.issue p cn ce m no k f u => (create_license db p cn ce m no k f u).2
  | Op.activateMachine k m t n => (activate_license db k m t n).2
  | Op.removeMachine k m => (remove_activation db k m).2
  | Op.revoke k => (revoke_license db k).2

/-- The freshly initialised store. -/
def emptyDB : DB := ⟨[], [], []⟩

/-- The store after a sequence of requests starting from the empty store. -/
def runOps (ops : List Op) : DB := ops.foldl applyOp emptyDB

/-! ## Sample data used by the concrete witnesses -/

/-- A sample issued `personal` license (server limit 3). -/
def licPersonal : License :=
  ⟨"NOVE-PER-0000-0000-0000", "personal", "Alice", "alice@example.com", 3,
   "2026-01-01", "2026-12-27", true, none⟩

/-- A sample revoked and expired trial license. -/
def licRevokedTrial : License :=
  ⟨"NOVE-TRI-0000-0000-0000", "trial14", "Bob", "bob@example.com", 1,
   "2025-01-01", "2025-01-15", false, none⟩

/-- A sample `consultation` license (server limit 0 = unlimited). -/
def licConsult : License :=
  ⟨"NOVE-CON-0000-0000-0000", "consultation", "Carol", "carol@example.com", 0,
   "2026-01-01", "2026-12-27", true, none⟩

/-- The machine `m1` already bound to the personal license. -/
def actPersonal : Activation :=
  ⟨"NOVE-PER-0000-0000-0000", "m1", "2026-01-02", "2026-01-02"⟩

/-- A sample store holding the three licenses and one activation. -/
def dbSample : DB := ⟨[], [licPersonal, licRevokedTrial, licConsult], [actPersonal]⟩

/-! ## Counting lemmas -/

/-- Appending one activation row bumps the count for its key by one and
leaves every other key's count unchanged. -/
theorem countActivations_append (db : DB) (a : Activation) (k : String) :
    countActivations { db with activations := db.activations ++ [a] } k =
      countActivations db k + (if a.license_key == k then 1 else 0) := by
  by_cases h : a.license_key == k <;>
    simp [countActivations, List.filter_append, List.filter_cons, h]

/-- Rewriting rows without touching their `license_key` (the `last_seen`
update) preserves the per-key row count. -/
theorem length_filter_map_key (l : List Activation) (f : Activation → Activation)
    (hf : ∀ a, (f a).license_key = a.license_key) (k : String) :
    ((l.map f).filter (fun a => a.license_key == k)).length =
      (l.filter (fun a => a.license_key == k)).length := by
  induction l with
  | nil => rfl
  | cons a t ih =>
    by_cases h : a.license_key == k <;>
      simp [List.filter_cons, hf, h, ih]

/-! ## Branch equations of `activate_license`, shared by several claims -/

/-- Unknown key: 404. -/
theorem activate_notfound_eq (db : DB) (k m today now : String)
    (h : db.licenses.find? (fun l => l.license_key == k) = none) :
    activate_license db k m today now = (Except.error ⟨404, keyNotFoundMsg⟩, db) := by
  simp [activate_license, h]

/-- Revoked license: 403, checked before expiry and before any count. -/
theorem activate_revoked_eq (db : DB) (k m today now : String) (lic : License)
    (hfind : db.licenses.find? (fun l => l.license_key == k) = some lic)
    (hact : lic.is_active = false) :
    activate_license db k m today now = (Except.error ⟨403, revokedMsg⟩, db) := by
  simp [activate_license, hfind, hact]

/-- Expired license: 403. -/
theorem activate_expired_eq (db : DB) (k m today now : String) (lic : License)
    (hfind : db.licenses.find? (fun l => l.license_key == k) = some lic)
    (hact : lic.is_active = true) (hexp : strLt lic.valid_until today = true) :
    activate_license db k m today now =
      (Except.error ⟨403, expiredMsg lic.valid_until⟩, db) := by
  simp [activate_license, hfind, hact, hexp]

/-- Known machine: only `last_seen` is rewritten, status `"valid"`, and the
reported count is the unchanged pre-call count. -/
theorem activate_known_eq (db : DB) (k m today now : String) (lic : License) (a : Activation)
    (hfind : db.licenses.find? (fun l => l.license_key == k) = some lic)
    (hact : lic.is_active = true) (hexp : strLt lic.valid_until today = false)
    (hrow : db.activations.find? (fun x => x.license_key == k && x.machine_id == m) = some a) :
    activate_license db k m today now =
      (Except.ok ⟨true, "valid", lic.plan, lic.customer_name, lic.valid_until,
        lic.server_limit, countActivations db k⟩,
       { db with activations := db.activations.map (fun x =>
           if x.license_key == k && x.machine_id == m then { x with last_seen := now }
           else x) }) := by
  simp only [activate_license, hfind, hact, hexp, hrow, Bool.not_true, Bool.false_eq_true,
    if_false, if_neg]
  simp [countActivations]
  exact length_filter_map_key _ _
    (fun x => by by_cases h : x.license_key = k ∧ x.machine_id = m <;> simp [h]) k

/-- New machine over a reached positive limit: 403. -/
theorem activate_limit_eq (db : DB) (k m today now : String) (lic : License)
    (hfind : db.licenses.find? (fun l => l.license_key == k) = some lic)
    (hact : lic.is_active = true) (hexp : strLt lic.valid_until today = false)
    (hrow : db.activations.find? (fun x => x.license_key == k && x.machine_id == m) = none)
    (hpos : 0 < lic.server_limit) (hge : lic.server_limit ≤ countActivations db k) :
    activate_license db k m today now =
      (Except.error ⟨403, limitMsg lic.server_limit⟩, db) := by
  simp [activate_license, hfind, hact, hexp, hrow, hpos, hge]

/-- New machine under the limit (or no limit): a row is inserted and the
reported count is the recomputed post-insert count. -/
theorem activate_insert_eq (db : DB) (k m today now : String) (lic : License)
    (hfind : db.licenses.find? (fun l => l.license_key == k) = some lic)
    (hact : lic.is_active = true) (hexp : strLt lic.valid_until today = false)
    (hrow : db.activations.find? (fun x => x.license_key == k && x.machine_id == m) = none)
    (hno : ¬(0 < lic.server_limit ∧ lic.server_limit ≤ countActivations db k)) :
    activate_license db k m today now =
      (Except.ok ⟨true, "activated", lic.plan, lic.customer_name, lic.valid_until,
        lic.server_limit, countActivations db k + 1⟩,
       { db with activations := db.activations ++ [⟨k, m, now, now⟩] }) := by
  simp [activate_license, hfind, hact, hexp, hrow, hno, countActivations_append]

/-- C1: `activate` checks its conditions in the order of the code and
returns accordingly: 404 NotFound when no license has the key; 403
revoked when `is_active` is false, regardless of count or expiry; 403
expired when `valid_until < today`; status `"valid"` with only
`last_seen` rewritten when the (key, machine) row exists; 403
limit_reached when the machine is new, `server_limit > 0` and the
current count is at least `server_limit`; otherwise a new row is
inserted, status `"activated"`, with the count recomputed after the
insert (one more than before). -/
theorem activate_checks_in_order (db : DB) (k m today now : String) :
    (db.licenses.find? (fun l => l.license_key == k) = none →
      activate_license db k m today now = (Except.error ⟨404, keyNotFoundMsg⟩, db)) ∧
    (∀ lic, db.licenses.find? (fun l => l.license_key == k) = some lic →
      lic.is_active = false →
      activate_license db k m today now = (Except.error ⟨403, revokedMsg⟩, db)) ∧
    (∀ lic, db.licenses.find? (fun l => l.license_key == k) = some lic →
      lic.is_active = true → strLt lic.valid_until today = true →
      activate_license db k m today now =
        (Except.error ⟨403, expiredMsg lic.valid_until⟩, db)) ∧
    (∀ lic a, db.licenses.find? (fun l => l.license_key == k) = some lic →
      lic.is_active = true → strLt lic.valid_until today = false →
      db.activations.find? (fun x => x.license_key == k && x.machine_id == m) = some a →
      activate_license db k m today now =
        (Except.ok ⟨true, "valid", lic.plan, lic.customer_name, lic.valid_until,
          lic.server_limit, countActivations db k⟩,
         { db with activations := db.activations.map (fun x =>
             if x.license_key == k && x.machine_id == m then { x with last_seen := now }
             else x) })) ∧
    (∀ lic, db.licenses.find? (fun l => l.license_key == k) = some lic →
      lic.is_active = true → strLt lic.valid_until today = false →
      db.activations.find? (fun x => x.license_key == k && x.machine_id == m) = none →
      0 < lic.server_limit → lic.server_limit ≤ countActivations db k →
      activate_license db k m today now =
        (Except.error ⟨403, limitMsg lic.server_limit⟩, db)) ∧
    (∀ lic, db.licenses.find? (fun l => l.license_key == k) = some lic →
      lic.is_active = true → strLt lic.valid_until today = false →
      db.activations.find? (fun x => x.license_key == k && x.machine_id == m) = none →
      ¬(0 < lic.server_limit ∧ lic.server_limit ≤ countActivations db k) →
      activate_license db k m today now =
        (Except.ok ⟨true, "activated", lic.plan, lic.customer_name, lic.valid_until,
          lic.server_limit, countActivations db k + 1⟩,
         { db with activations := db.activations ++ [⟨k, m, now, now⟩] })) :=
  ⟨fun h => activate_notfound_eq db k m today now h,
   fun lic hfind hact => activate_revoked_eq db k m today now lic hfind hact,
   fun lic hfind hact hexp => activate_expired_eq db k m today now lic hfind hact hexp,
   fun lic a hfind hact hexp hrow =>
     activate_known_eq db k m today now lic a hfind hact hexp hrow,
   fun lic hfind hact hexp hrow hpos hge =>
     activate_limit_eq db k m today now lic hfind hact hexp hrow hpos hge,
   fun lic hfind hact hexp hrow hno =>
     activate_insert_eq db k m today now lic hfind hact hexp hrow hno⟩

/-- Concrete witness for C1: the revoked trial license fails with the
revoked reason even though it is also expired. -/
theorem activate_checks_in_order_witness :
    activate_license dbSample "NOVE-TRI-0000-0000-0000" "m7" "2026-06-01" "2026-06-01 09:00:00" =
      (Except.error ⟨403, revokedMsg⟩, dbSample) :=
  (activate_checks_in_order dbSample "NOVE-TRI-0000-0000-0000" "m7" "2026-06-01"
      "2026-06-01 09:00:00").2.1 licRevokedTrial (by decide) (by decide)

/-- C4: a license with `server_limit = 0` (unlimited) that is active and
not expired never fails with the limit_reached reason: a brand-new
machine is always admitted, whatever the current number of rows. -/
theorem unlimited_admits_new_machine (db : DB) (k m today now : String) (lic : License)
    (hfind : db.licenses.find? (fun l => l.license_key == k) = some lic)
    (hsl : lic.server_limit = 0)
    (hact : lic.is_active = true) (hexp : strLt lic.valid_until today = false) :
    (∃ resp db2, activate_license db k m today now = (Except.ok resp, db2)) ∧
    (db.activations.find? (fun x => x.license_key == k && x.machine_id == m) = none →
      activate_license db k m today now =
        (Except.ok ⟨true, "activated", lic.plan, lic.customer_name, lic.valid_until,
          lic.server_limit, countActivations db k + 1⟩,
         { db with activations := db.activations ++ [⟨k, m, now, now⟩] })) := by
  constructor
  · cases hrow : db.activations.find? (fun x => x.license_key == k && x.machine_id == m) with
    | some a =>
      exact ⟨_, _, activate_known_eq db k m today now lic a hfind hact hexp hrow⟩
    | none =>
      exact ⟨_, _, activate_insert_eq db k m today now lic hfind hact hexp hrow (by simp [hsl])⟩
  · intro hnew
    exact activate_insert_eq db k m today now lic hfind hact hexp hnew (by simp [hsl])

/-- Concrete witness for C4: a new machine on the unlimited consultation
license is admitted. -/
theorem unlimited_admits_new_machine_witness :
    activate_license dbSample "NOVE-CON-0000-0000-0000" "m9" "2026-06-01" "2026-06-01 09:00:00" =
      (Except.ok ⟨true, "activated", licConsult.plan, licConsult.customer_name,
        licConsult.valid_until, licConsult.server_limit,
        countActivations dbSample "NOVE-CON-0000-0000-0000" + 1⟩,
       { dbSample with activations := dbSample.activations ++
           [⟨"NOVE-CON-0000-0000-0000", "m9", "2026-06-01 09:00:00", "2026-06-01 09:00:00"⟩] }) :=
  (unlimited_admits_new_machine dbSample "NOVE-CON-0000-0000-0000" "m9" "2026-06-01"
    "2026-06-01 09:00:00" licConsult (by decide) (by decide) (by decide) (by decide)).2
    (by decide)

/-- C7: activating an already-bound machine is idempotent: status
`"valid"`, no new row (the table is only rewritten in place, so its
length and the reported count are unchanged) and only that row's
`last_seen` field changes; in particular the call cannot fail on the
server limit. -/
theorem activate_idempotent_known_machine (db : DB) (k m today now : String)
    (lic : License) (a : Activation)
    (hfind : db.licenses.find? (fun l => l.license_key == k) = some lic)
    (hact : lic.is_active = true) (hexp : strLt lic.valid_until today = false)
    (hrow : db.activations.find? (fun x => x.license_key == k && x.machine_id == m) = some a) :
    activate_license db k m today now =
      (Except.ok ⟨true, "valid", lic.plan, lic.customer_name, lic.valid_until,
        lic.server_limit, countActivations db k⟩,
       { db with activations := db.activations.map (fun x =>
           if x.license_key == k && x.machine_id == m then { x with last_seen := now }
           else x) }) ∧
    (activate_license db k m today now).2.activations.length = db.activations.length := by
  have h := activate_known_eq db k m today now lic a hfind hact hexp hrow
  exact ⟨h, by rw [h]; simp⟩

/-- Concrete witness for C7: re-activating `m1` on the personal license. -/
theorem activate_idempotent_known_machine_witness :
    activate_license dbSample "NOVE-PER-0000-0000-0000" "m1" "2026-06-01" "2026-06-02 00:00:00" =
      (Except.ok ⟨true, "valid", licPersonal.plan, licPersonal.customer_name,
        licPersonal.valid_until, licPersonal.server_limit,
        countActivations dbSample "NOVE-PER-0000-0000-0000"⟩,
       { dbSample with activations := dbSample.activations.map (fun x =>
           if x.license_key == "NOVE-PER-0000-0000-0000" && x.machine_id == "m1" then
             { x with last_seen := "2026-06-02 00:00:00" }
           else x) }) ∧
    (activate_license dbSample "NOVE-PER-0000-0000-0000" "m1" "2026-06-01"
        "2026-06-02 00:00:00").2.activations.length = dbSample.activations.length :=
  activate_idempotent_known_machine dbSample "NOVE-PER-0000-0000-0000" "m1" "2026-06-01"
    "2026-06-02 00:00:00" licPersonal actPersonal (by decide) (by decide) (by decide) (by decide)

/-- C3: `validate` fails 404 when no license has the key; otherwise it
returns the full license row together with
`is_expired = (valid_until < today)`,
`is_valid = is_active AND NOT is_expired` and the current activation
count for the key.  It is a pure read: it takes the store and returns
only a response, never an updated store. -/
theorem validate_reports_state (db : DB) (key today : String) :
    (db.licenses.find? (fun l => l.license_key == key) = none →
      validate_license db key today = Except.error ⟨404, keyNotFoundMsg⟩) ∧
    (∀ r, db.licenses.find? (fun l => l.license_key == key) = some r →
      validate_license db key today =
        Except.ok ⟨r, strLt r.valid_until today,
          r.is_active && !(strLt r.valid_until today), countActivations db key⟩) := by
  constructor
  · intro h
    simp [validate_license, h]
  · intro r h
    simp [validate_license, h]

/-- Concrete witness for C3: validating the revoked, expired trial. -/
theorem validate_reports_state_witness :
    validate_license dbSample "NOVE-TRI-0000-0000-0000" "2026-06-01" =
      Except.ok ⟨licRevokedTrial, strLt licRevokedTrial.valid_until "2026-06-01",
        licRevokedTrial.is_active && !(strLt licRevokedTrial.valid_until "2026-06-01"),
        countActivations dbSample "NOVE-TRI-0000-0000-0000"⟩ :=
  (validate_reports_state dbSample "NOVE-TRI-0000-0000-0000" "2026-06-01").2
    licRevokedTrial (by decide)

/-! ## Revocation -/

/-- Flipping `is_active` off for a key is pointwise idempotent. -/
theorem revoke_fun_idem (key : String) (l : License) :
    (fun l => if l.license_key == key then { l with is_active := false } else l)
      ((fun l => if l.license_key == key then { l with is_active := false } else l) l) =
    (fun l => if l.license_key == key then { l with is_active := false } else l) l := by
  by_cases h : (l.license_key == key) = true <;> simp [h]

/-- Applying the revoke rewrite twice equals applying it once. -/
theorem revoke_map_after_map (ls : List License) (key : String) :
    (ls.map (fun l => if l.license_key == key then { l with is_active := false } else l)).map
        (fun l => if l.license_key == key then { l with is_active := false } else l) =
      ls.map (fun l => if l.license_key == key then { l with is_active := false } else l) := by
  rw [List.map_map]
  exact List.map_congr_left (fun l _ => revoke_fun_idem key l)

/-- The revoke rewrite does nothing when no row has the key. -/
theorem revoke_map_id (ls : List License) (key : String)
    (h : ∀ l ∈ ls, l.license_key ≠ key) :
    ls.map (fun l => if l.license_key == key then { l with is_active := false } else l) = ls := by
  have h2 : ∀ l ∈ ls,
      (fun l => if l.license_key == key then { l with is_active := false } else l) l = id l := by
    intro l hl
    have hb : (l.license_key == key) = false := by simpa using h l hl
    simp [hb]
  rw [List.map_congr_left h2, List.map_id]

/-- C9: revoke answers with status ok for every key, including keys with
no license (it never raises 404); it is idempotent; and on an unknown
key it leaves the store unchanged. -/
theorem revoke_always_ok_idempotent (db : DB) (key : String) :
    (revoke_license db key).1.status = "ok" ∧
    revoke_license (revoke_license db key).2 key = revoke_license db key ∧
    ((∀ l ∈ db.licenses, l.license_key ≠ key) → (revoke_license db key).2 = db) := by
  refine ⟨rfl, ?_, ?_⟩
  · simp only [revoke_license]
    rw [revoke_map_after_map]
  · intro h
    simp only [revoke_license]
    rw [revoke_map_id db.licenses key h]

/-- Concrete witness for C9: revoking a key that no license has. -/
theorem revoke_always_ok_idempotent_witness :
    (revoke_license dbSample "NOVE-XXX-9999-9999-9999").2 = dbSample ∧
    (revoke_license dbSample "NOVE-XXX-9999-9999-9999").1.status = "ok" :=
  ⟨(revoke_always_ok_idempotent dbSample "NOVE-XXX-9999-9999-9999").2.2 (by decide),
   (revoke_always_ok_idempotent dbSample "NOVE-XXX-9999-9999-9999").1⟩

/-! ## Key generation format -/

/-- An uppercase hexadecimal digit. -/
def isUpperHexDigit (c : Char) : Bool := "0123456789ABCDEF".data.contains c

/-- Every character of the string is an uppercase hex digit. -/
def allUpperHex (s : String) : Bool := s.data.all isUpperHexDigit

theorem hexChar_upperHex : ∀ k, k < 16 → isUpperHexDigit (hexChar k) = true := by decide

/-- Every character of the modelled `uuid4().hex.upper()` is an
uppercase hex digit. -/
theorem mem_uuidHexUpper_hex (n : Nat) :
    ∀ c ∈ (uuidHexUpper n).data, isUpperHexDigit c = true := by
  intro c hc
  simp only [uuidHexUpper, List.mem_map, List.mem_range] at hc
  obtain ⟨i, _, rfl⟩ := hc
  exact hexChar_upperHex _ (Nat.mod_lt _ (by decide))

/-- C8: for every plan identifier and every 128-bit random value, the
generated key is `NOVE-XXX-AAAA-BBBB-CCCC`: the fixed prefix `NOVE`, the
first three characters of the plan uppercased, then three 4-character
groups of uppercase hexadecimal digits drawn in order from the hex
expansion of the random value. -/
theorem generate_key_format (plan : String) (n : Nat) :
    ∃ g1 g2 g3 : String,
      generate_key plan (uuidHexUpper n) =
        "NOVE-" ++ String.mk ((plan.data.take 3).map Char.toUpper) ++ "-" ++ g1
          ++ "-" ++ g2 ++ "-" ++ g3 ∧
      g1.length = 4 ∧ g2.length = 4 ∧ g3.length = 4 ∧
      allUpperHex g1 = true ∧ allUpperHex g2 = true ∧ allUpperHex g3 = true ∧
      g1.data = (uuidHexUpper n).data.take 4 ∧
      g2.data = ((uuidHexUpper n).data.drop 4).take 4 ∧
      g3.data = ((uuidHexUpper n).data.drop 8).take 4 := by
  refine ⟨String.mk ((uuidHexUpper n).data.take 4),
          String.mk (((uuidHexUpper n).data.drop 4).take 4),
          String.mk (((uuidHexUpper n).data.drop 8).take 4),
          ?_, ?_, ?_, ?_, ?_, ?_, ?_, rfl, rfl, rfl⟩
  · apply String.ext
    simp [generate_key, String.data_append]
  · simp [String.length, uuidHexUpper]
  · simp [String.length, uuidHexUpper]
  · simp [String.length, uuidHexUpper]
  · exact List.all_eq_true.2 fun c hc =>
      mem_uuidHexUpper_hex n c (List.take_subset _ _ hc)
  · exact List.all_eq_true.2 fun c hc =>
      mem_uuidHexUpper_hex n c (List.drop_subset _ _ (List.take_subset _ _ hc))
  · exact List.all_eq_true.2 fun c hc =>
      mem_uuidHexUpper_hex n c (List.drop_subset _ _ (List.take_subset _ _ hc))

/-! ## Trial issuance and license creation -/

/-- C10: the duplicate-trial rejection depends only on the existence of
some license with the same `customer_email` and plan `trial14`: the
stored license's `is_active` flag and validity window play no role, so
an email whose earlier trial was revoked or expired is still rejected
with the duplicate-trial error, and the store is unchanged. -/
theorem trial_dedup_ignores_validity (db : DB) (name email : String)
    (company : Option String) (key today valid_until : String) (l : License)
    (hl : l ∈ db.licenses) (he : l.customer_email = email) (hp : l.plan = "trial14") :
    request_trial db name email company key today valid_until =
      (Except.error ⟨409, dupTrialMsg⟩, db) := by
  cases hf : db.licenses.find? (fun x => x.customer_email == email && x.plan == "trial14") with
  | none =>
    exfalso
    have hcontra := List.find?_eq_none.1 hf l hl
    simp [he, hp] at hcontra
  | some x =>
    simp [request_trial, hf]

/-- Concrete witness for C10: the revoked AND expired trial of
`bob@example.com` still blocks a new trial for that email. -/
theorem trial_dedup_ignores_validity_witness :
    request_trial dbSample "Bob" "bob@example.com" none "NOVE-TRI-1111-1111-1111"
        "2026-06-01" "2026-06-15" = (Except.error ⟨409, dupTrialMsg⟩, dbSample) :=
  trial_dedup_ignores_validity dbSample "Bob" "bob@example.com" none "NOVE-TRI-1111-1111-1111"
    "2026-06-01" "2026-06-15" licRevokedTrial (by decide) (by decide) (by decide)

/-- C5: for an email with no trial license yet (and a fresh generated
key), the first issueTrial succeeds, persisting a `trial14` license for
that email, and a second issueTrial with the same email fails with the
duplicate-trial error (409), leaving the store exactly as after the
first call: no further license is inserted. -/
theorem trial_succeeds_once_per_email (db : DB) (name1 name2 email : String)
    (company1 company2 : Option String) (key1 today1 until1 key2 today2 until2 : String)
    (hno : ∀ l ∈ db.licenses, ¬(l.customer_email = email ∧ l.plan = "trial14"))
    (hkey : ∀ l ∈ db.licenses, l.license_key ≠ key1) :
    ∃ db1 : DB,
      request_trial db name1 email company1 key1 today1 until1 =
        (Except.ok ⟨"ok", key1, until1,
          "curl -fsSL https://noveos.jp/install.sh | sudo bash -s " ++ key1⟩, db1) ∧
      (∃ l ∈ db1.licenses, l.customer_email = email ∧ l.plan = "trial14") ∧
      request_trial db1 name2 email company2 key2 today2 until2 =
        (Except.error ⟨409, dupTrialMsg⟩, db1) := by
  have hfind : db.licenses.find?
      (fun l => l.customer_email == email && l.plan == "trial14") = none :=
    List.find?_eq_none.2 (fun l hl => by simpa using hno l hl)
  have hany : db.licenses.any (fun l => l.license_key == key1) = false := by
    rw [List.any_eq_false]
    intro l hl
    simpa using hkey l hl
  refine ⟨{ db with
      licenses := db.licenses ++ [⟨key1, "trial14", name1, email, 1, today1, until1, true,
        some ("会社: " ++ company1.getD "未記入")⟩],
      contacts := db.contacts ++ [⟨"トライアル", name1, email, company1, some "trial14",
        some "14日間無料トライアル申込"⟩] }, ?_, ?_, ?_⟩
  · have hsl : ((PLAN_LABELS.lookup "trial14").getD ("", 0, "")).2.1 = 1 := by decide
    simp [request_trial, hfind, hany, hsl]
  · exact ⟨⟨key1, "trial14", name1, email, 1, today1, until1, true,
      some ("会社: " ++ company1.getD "未記入")⟩, by simp, rfl, rfl⟩
  · have hfind2 : (db.licenses ++ [(⟨key1, "trial14", name1, email, 1, today1, until1, true,
        some ("会社: " ++ company1.getD "未記入")⟩ : License)]).find?
          (fun l => l.customer_email == email && l.plan == "trial14") =
        some ⟨key1, "trial14", name1, email, 1, today1, until1, true,
          some ("会社: " ++ company1.getD "未記入")⟩ := by
      rw [List.find?_append, hfind]
      simp
    simp [request_trial, hfind2]

/-- Concrete witness for C5: a fresh email obtains one trial, then is
rejected on the second request. -/
theorem trial_succeeds_once_per_email_witness :
    ∃ db1 : DB,
      request_trial dbSample "Dana" "dana@example.com" none "NOVE-TRI-2222-2222-2222"
          "2026-06-01" "2026-06-15" =
        (Except.ok ⟨"ok", "NOVE-TRI-2222-2222-2222", "2026-06-15",
          "curl -fsSL https://noveos.jp/install.sh | sudo bash -s "
            ++ "NOVE-TRI-2222-2222-2222"⟩, db1) ∧
      (∃ l ∈ db1.licenses, l.customer_email = "dana@example.com" ∧ l.plan = "trial14") ∧
      request_trial db1 "Dana" "dana@example.com" none "NOVE-TRI-3333-3333-3333"
          "2026-06-02" "2026-06-16" = (Except.error ⟨409, dupTrialMsg⟩, db1) :=
  trial_succeeds_once_per_email dbSample "Dana" "Dana" "dana@example.com" none none
    "NOVE-TRI-2222-2222-2222" "2026-06-01" "2026-06-15" "NOVE-TRI-3333-3333-3333"
    "2026-06-02" "2026-06-16" (by decide) (by decide)

/-- C6 counterexample: when the generated key collides with an existing
`license_key`, `create_license` responds with HTTP status 500, not a
conflict-category (409) error — though indeed no license is persisted
(the store is unchanged). -/
theorem create_license_collision_status_counterexample :
    (create_license dbSample "personal" "Eve" "eve@example.com" 12 none
        "NOVE-PER-0000-0000-0000" "2026-06-01" "2027-05-27").1 =
      Except.error ⟨500, keyGenFailMsg⟩ ∧
    (500 : Nat) ≠ 409 ∧
    (create_license dbSample "personal" "Eve" "eve@example.com" 12 none
        "NOVE-PER-0000-0000-0000" "2026-06-01" "2027-05-27").2 = dbSample := by
  refine ⟨by decide, by decide, by decide⟩

/-- C6 amended: on a key-uniqueness collision, `create_license` fails
with an HTTP 500 error telling the caller to retry, and no license
record is persisted (the store is returned unchanged). -/
theorem create_license_collision_fails_500 (db : DB)
    (plan customer_name customer_email : String) (months : Nat) (note : Option String)
    (key valid_from valid_until : String) (pinfo : String × Nat × String)
    (hplan : PLAN_LABELS.lookup plan = some pinfo)
    (hcol : ∃ l ∈ db.licenses, l.license_key = key) :
    create_license db plan customer_name customer_email months note key valid_from valid_until =
      (Except.error ⟨500, keyGenFailMsg⟩, db) := by
  have hany : db.licenses.any (fun l => l.license_key == key) = true := by
    obtain ⟨l, hl, hk⟩ := hcol
    exact List.any_eq_true.2 ⟨l, hl, by simp [hk]⟩
  obtain ⟨pn, sl, pr⟩ := pinfo
  simp [create_license, hplan, hany]

/-- Concrete witness for C6 (amended): issuing a personal license whose
generated key equals the stored personal license's key. -/
theorem create_license_collision_fails_500_witness :
    create_license dbSample "personal" "Eve" "eve@example.com" 12 none
        "NOVE-PER-0000-0000-0000" "2026-06-01" "2027-05-27" =
      (Except.error ⟨500, keyGenFailMsg⟩, dbSample) :=
  create_license_collision_fails_500 dbSample "personal" "Eve" "eve@example.com" 12 none
    "NOVE-PER-0000-0000-0000" "2026-06-01" "2027-05-27" ("パーソナル", 3, "¥5,000/月")
    (by decide) ⟨licPersonal, by decide, by decide⟩

/-! ## The server-limit invariant over all reachable stores (C2) -/

/-- License keys are pairwise distinct (the UNIQUE column constraint). -/
def uniqueKeys (db : DB) : Prop := (db.licenses.map License.license_key).Nodup

/-- Every activation row references a stored license's key. -/
def keysExist (db : DB) : Prop :=
  ∀ a ∈ db.activations, ∃ l ∈ db.licenses, l.license_key = a.license_key

/-- The cross-entity invariant: the per-key activation row count never
exceeds a positive server limit. -/
def limitOK (db : DB) : Prop :=
  ∀ l ∈ db.licenses, 0 < l.server_limit →
    countActivations db l.license_key ≤ l.server_limit

/-- All store invariants together. -/
def Inv (db : DB) : Prop := uniqueKeys db ∧ keysExist db ∧ limitOK db

theorem Inv_emptyDB : Inv emptyDB := by
  refine ⟨?_, ?_, ?_⟩ <;> simp [uniqueKeys, keysExist, limitOK, emptyDB]

/-- Two stored licenses with the same key are the same row. -/
theorem uniqueKeys_inj (db : DB) (hU : uniqueKeys db) (l1 l2 : License)
    (h1 : l1 ∈ db.licenses) (h2 : l2 ∈ db.licenses)
    (hk : l1.license_key = l2.license_key) : l1 = l2 :=
  List.inj_on_of_nodup_map hU h1 h2 hk

/-- A key held by no license has no activation rows. -/
theorem no_rows_of_fresh_key (db : DB) (key : String) (hE : keysExist db)
    (hfresh : ∀ l ∈ db.licenses, l.license_key ≠ key) :
    countActivations db key = 0 := by
  rw [countActivations, List.length_eq_zero, List.filter_eq_nil_iff]
  intro a ha
  simp only [beq_iff_eq]
  intro hk
  obtain ⟨l, hl, hlk⟩ := hE a ha
  exact hfresh l hl (hlk.trans hk)

/-- Inserting a license with a fresh key (plus any contact bookkeeping)
preserves the invariants. -/
theorem Inv_append_license (db : DB) (lic : License) (contacts2 : List Contact)
    (hInv : Inv db) (hfresh : ∀ l ∈ db.licenses, l.license_key ≠ lic.license_key) :
    Inv ⟨contacts2, db.licenses ++ [lic], db.activations⟩ := by
  obtain ⟨hU, hE, hL⟩ := hInv
  refine ⟨?_, ?_, ?_⟩
  · rw [uniqueKeys]
    simp only [List.map_append, List.map_cons, List.map_nil]
    rw [List.nodup_append]
    refine ⟨hU, List.nodup_singleton _, ?_⟩
    intro x hx hx2
    simp only [List.mem_singleton] at hx2
    simp only [List.mem_map] at hx
    obtain ⟨l, hl, rfl⟩ := hx
    exact hfresh l hl hx2
  · intro a ha
    obtain ⟨l, hl, hlk⟩ := hE a ha
    exact ⟨l, List.mem_append_left _ hl, hlk⟩
  · intro l hl hpos
    rcases List.mem_append.1 hl with h | h
    · exact hL l h hpos
    · simp only [List.mem_singleton] at h
      subst h
      have h0 : countActivations db l.license_key = 0 :=
        no_rows_of_fresh_key db _ hE hfresh
      have h0b : countActivations ⟨contacts2, db.licenses ++ [l], db.activations⟩
          l.license_key = 0 := h0
      rw [h0b]
      exact Nat.zero_le _

/-- Inserting an activation row for a stored license with room under its
limit preserves the invariants. -/
theorem Inv_append_activation (db : DB) (lic : License) (a : Activation)
    (hInv : Inv db) (hlic : lic ∈ db.licenses) (hkey : lic.license_key = a.license_key)
    (hroom : 0 < lic.server_limit → countActivations db a.license_key < lic.server_limit) :
    Inv { db with activations := db.activations ++ [a] } := by
  obtain ⟨hU, hE, hL⟩ := hInv
  refine ⟨hU, ?_, ?_⟩
  · intro x hx
    rcases List.mem_append.1 hx with h | h
    · exact hE x h
    · simp only [List.mem_singleton] at h
      subst h
      exact ⟨lic, hlic, hkey⟩
  · intro l hl hpos
    rw [countActivations_append]
    by_cases hk : (a.license_key == l.license_key) = true
    · have hkeq : a.license_key = l.license_key := by simpa using hk
      have hleq : lic = l := uniqueKeys_inj db hU lic l hlic hl (hkey.trans hkeq)
      subst hleq
      have hr : countActivations db lic.license_key < lic.server_limit := by
        have := hroom hpos
        rwa [← hkey] at this
      simp only [hk, if_true]
      omega
    · simp only [hk, Bool.false_eq_true, if_false]
      have := hL l hl hpos
      omega

/-- Rewriting activation rows without touching their keys (the
`last_seen` heartbeat update) preserves the invariants. -/
theorem Inv_map_update (db : DB) (f : Activation → Activation)
    (hf : ∀ a, (f a).license_key = a.license_key) (hInv : Inv db) :
    Inv { db with activations := db.activations.map f } := by
  obtain ⟨hU, hE, hL⟩ := hInv
  refine ⟨hU, ?_, ?_⟩
  · intro x hx
    obtain ⟨a, ha, rfl⟩ := List.mem_map.1 hx
    obtain ⟨l, hl, hlk⟩ := hE a ha
    exact ⟨l, hl, hlk.trans (hf a).symm⟩
  · intro l hl hpos
    have hc : countActivations { db with activations := db.activations.map f }
        l.license_key = countActivations db l.license_key := by
      simp only [countActivations]
      exact length_filter_map_key db.activations f hf l.license_key
    rw [hc]
    exact hL l hl hpos

/-- Deleting activation rows (admin removal) preserves the invariants. -/
theorem Inv_filter_activations (db : DB) (p : Activation → Bool) (hInv : Inv db) :
    Inv { db with activations := db.activations.filter p } := by
  obtain ⟨hU, hE, hL⟩ := hInv
  refine ⟨hU, ?_, ?_⟩
  · intro x hx
    exact hE x (List.mem_of_mem_filter hx)
  · intro l hl hpos
    have hle : countActivations { db with activations := db.activations.filter p }
        l.license_key ≤ countActivations db l.license_key := by
      simp only [countActivations]
      exact ((db.activations.filter_sublist).filter _).length_le
    exact hle.trans (hL l hl hpos)

/-- Revocation flips `is_active` flags only, preserving the invariants. -/
theorem Inv_revoke (db : DB) (key : String) (hInv : Inv db) :
    Inv (revoke_license db key).2 := by
  obtain ⟨hU, hE, hL⟩ := hInv
  refine ⟨?_, ?_, ?_⟩
  · rw [uniqueKeys]
    simp only [revoke_license, List.map_map]
    have hcomp : (License.license_key ∘ fun l =>
        if l.license_key == key then { l with is_active := false } else l) =
        License.license_key := by
      funext l
      by_cases h : (l.license_key == key) = true <;> simp [h, Function.comp]
    rw [hcomp]
    exact hU
  · intro a ha
    obtain ⟨l, hl, hlk⟩ := hE a ha
    refine ⟨if l.license_key == key then { l with is_active := false } else l,
      List.mem_map.2 ⟨l, hl, rfl⟩, ?_⟩
    by_cases h : (l.license_key == key) = true
    · rw [if_pos h]
      exact hlk
    · rw [if_neg h]
      exact hlk
  · intro l hl hpos
    obtain ⟨l0, hl0, rfl⟩ := List.mem_map.1 hl
    by_cases h : (l0.license_key == key) = true
    · simp only [h, if_true] at hpos ⊢
      exact hL l0 hl0 hpos
    · simp only [h, Bool.false_eq_true, if_false] at hpos ⊢
      exact hL l0 hl0 hpos

/-- Trial issuance preserves the invariants. -/
theorem Inv_request_trial (db : DB) (n e : String) (c : Option String) (k t u : String)
    (hInv : Inv db) : Inv (request_trial db n e c k t u).2 := by
  cases hf : db.licenses.find? (fun l => l.customer_email == e && l.plan == "trial14") with
  | some x =>
    simp only [request_trial, hf]
    exact hInv
  | none =>
    by_cases hany : (db.licenses.any (fun l => l.license_key == k)) = true
    · simp only [request_trial, hf, hany, if_true]
      exact hInv
    · have hany2 : (db.licenses.any (fun l => l.license_key == k)) = false := by
        simpa using hany
      simp only [request_trial, hf, hany2, Bool.false_eq_true, if_false]
      have hfresh : ∀ l ∈ db.licenses, l.license_key ≠ k := by
        intro l hl
        simpa using List.any_eq_false.1 hany2 l hl
      exact Inv_append_license db _ _ hInv hfresh

/-- Standard issuance preserves the invariants. -/
theorem Inv_create_license (db : DB) (p cn ce : String) (mo : Nat) (no : Option String)
    (k f u : String) (hInv : Inv db) : Inv (create_license db p cn ce mo no k f u).2 := by
  cases hp : PLAN_LABELS.lookup p with
  | none =>
    simp only [create_license, hp]
    exact hInv
  | some info =>
    obtain ⟨pn, sl, pr⟩ := info
    by_cases hany : (db.licenses.any (fun l => l.license_key == k)) = true
    · simp only [create_license, hp, hany, if_true]
      exact hInv
    · have hany2 : (db.licenses.any (fun l => l.license_key == k)) = false := by
        simpa using hany
      simp only [create_license, hp, hany2, Bool.false_eq_true, if_false]
      have hfresh : ∀ l ∈ db.licenses, l.license_key ≠ k := by
        intro l hl
        simpa using List.any_eq_false.1 hany2 l hl
      exact Inv_append_license db _ db.contacts hInv hfresh

/-- Activation preserves the invariants: the only insertion is guarded by
the count check. -/
theorem Inv_activate (db : DB) (k m today now : String) (hInv : Inv db) :
    Inv (activate_license db k m today now).2 := by
  cases hfind : db.licenses.find? (fun l => l.license_key == k) with
  | none =>
    rw [activate_notfound_eq db k m today now hfind]
    exact hInv
  | some lic =>
    by_cases hact : lic.is_active = true
    · by_cases hexp : strLt lic.valid_until today = true
      · rw [activate_expired_eq db k m today now lic hfind hact hexp]
        exact hInv
      · have hexp2 : strLt lic.valid_until today = false := by simpa using hexp
        cases hrow : db.activations.find?
            (fun x => x.license_key == k && x.machine_id == m) with
        | some a =>
          rw [activate_known_eq db k m today now lic a hfind hact hexp2 hrow]
          exact Inv_map_update db _ (fun x => by
            by_cases hx : (x.license_key == k && x.machine_id == m) = true <;> simp [hx]) hInv
        | none =>
          by_cases hlim : 0 < lic.server_limit ∧ lic.server_limit ≤ countActivations db k
          · rw [activate_limit_eq db k m today now lic hfind hact hexp2 hrow hlim.1 hlim.2]
            exact hInv
          · rw [activate_insert_eq db k m today now lic hfind hact hexp2 hrow hlim]
            refine Inv_append_activation db lic ⟨k, m, now, now⟩ hInv
              (List.mem_of_find?_eq_some hfind) ?_ ?_
            · simpa using List.find?_some hfind
            · intro hpos
              show countActivations db k < lic.server_limit
              omega
    · have hact2 : lic.is_active = false := by simpa using hact
      rw [activate_revoked_eq db k m today now lic hfind hact2]
      exact hInv

/-- Every request handler preserves the invariants. -/
theorem Inv_applyOp (db : DB) (op : Op) (hInv : Inv db) : Inv (applyOp db op) := by
  cases op with
  | trial n e c k t u => exact Inv_request_trial db n e c k t u hInv
  | issue p cn ce mo no k f u => exact Inv_create_license db p cn ce mo no k f u hInv
  | activateMachine k m t n => exact Inv_activate db k m t n hInv
  | removeMachine k m => exact Inv_filter_activations db _ hInv
  | revoke k => exact Inv_revoke db k hInv

/-- The invariants hold along every request sequence. -/
theorem Inv_foldl (ops : List Op) : ∀ db : DB, Inv db → Inv (ops.foldl applyOp db) := by
  induction ops with
  | nil => exact fun db h => h
  | cons op t ih => exact fun db h => ih (applyOp db op) (Inv_applyOp db op h)

/-- C2: in every store reachable from the fresh store by any sequence of
trial issuance, standard issuance, activation, activation removal and
revocation, every license with positive `server_limit` has at most
`server_limit` activation rows for its key. -/
theorem activation_count_le_server_limit (ops : List Op) (l : License)
    (hl : l ∈ (runOps ops).licenses) (hpos : 0 < l.server_limit) :
    countActivations (runOps ops) l.license_key ≤ l.server_limit :=
  (Inv_foldl ops emptyDB Inv_emptyDB).2.2 l hl hpos

/-- A concrete request sequence: issue a personal license (limit 3) and
activate two machines. -/
def opsW : List Op :=
  [Op.issue "personal" "Alice" "alice@example.com" 12 none "NOVE-PER-0000-0000-0000"
     "2026-01-01" "2026-12-27",
   Op.activateMachine "NOVE-PER-0000-0000-0000" "m1" "2026-02-01" "2026-02-01 10:00:00",
   Op.activateMachine "NOVE-PER-0000-0000-0000" "m2" "2026-02-02" "2026-02-02 10:00:00"]

/-- Concrete witness for C2: after the sample sequence, the personal
license's count is within its limit. -/
theorem activation_count_le_server_limit_witness :
    licPersonal ∈ (runOps opsW).licenses ∧ 0 < licPersonal.server_limit ∧
      countActivations (runOps opsW) licPersonal.license_key ≤ licPersonal.server_limit :=
  ⟨by decide, by decide,
   activation_count_le_server_limit opsW licPersonal (by decide) (by decide)⟩

end NoveApi
